import Mathlib

/-!
Shallow embedding of the state-management and data-cache subsystem of the
repository (reducers, the optimistic-mutation hook around the `["todos"]`
cache entry, the zustand counter store, and the query-executor behaviour
described by the specification), together with theorems settling the
specification's claims about them.
-/

/-! ## Tasks reducer (src/src/state-management/reducers/tasksReducer.ts) -/

namespace StateManagement

/-- `Task` from tasksReducer.ts: `{ id: number; title: string }`. -/
structure Task where
  id : Nat
  title : String
deriving DecidableEq, Repr

/-- A task action as it exists at JavaScript runtime: an object with a string
tag `type` and the payload fields of the two declared shapes (`ADD` carries
`task`, `DELETE` carries `taskId`).  Modelling the tag as an open string keeps
the reducer's `default` branch reachable, exactly as in the source's `switch`. -/
structure TaskAction where
  type : String
  task : Task
  taskId : Nat
deriving DecidableEq, Repr

/-- `taskReducer` from tasksReducer.ts: `switch (action.type)` with
`case "ADD"` returning `[action.task, ...tasks]`, `case "DELETE"` returning
`tasks.filter((task) => action.taskId !== task.id)`, and a `default` branch
returning `tasks` unchanged. -/
def taskReducer (tasks : List Task) (action : TaskAction) : List Task :=
  if action.type = "ADD" then action.task :: tasks
  else if action.type = "DELETE" then tasks.filter (fun task => action.taskId ≠ task.id)
  else tasks

/-! ## Auth reducer (src/src/state-management/reducers/logInReducer.ts) -/

/-- A login action at JavaScript runtime: a string tag `type` plus the `user`
payload of the `LOGIN` shape.  The open string tag keeps the reducer's final
`return ""` reachable, as in the source. -/
structure LogAction where
  type : String
  user : String
deriving DecidableEq, Repr

/-- `AuthReducer` from logInReducer.ts: `if (action.type === "LOGIN") return
action.user; if (action.type === "LOGOUT") return ""; return "";`. -/
def AuthReducer (state : String) (action : LogAction) : String :=
  if action.type = "LOGIN" then action.user
  else if action.type = "LOGOUT" then ""
  else ""

end StateManagement

/-! ## Theorems about the reducers -/

open StateManagement

/-- C8: `taskReducer` is pure and deterministic — equal task lists and equal
actions give equal results, an ADD action returns a new list with the task
prepended, a DELETE action returns the filtered list (keeping every task whose
id differs from `taskId`), and any action whose tag is neither "ADD" nor
"DELETE" returns the input list unchanged.  Side-effect freedom and
non-mutation hold by construction: the embedding is a total function on
immutable lists and these equations exhibit its results as fresh lists built
from (not written into) the input. -/
theorem taskReducer_pure_deterministic :
    (∀ (ts ts' : List Task) (a a' : TaskAction), ts = ts' → a = a' →
      taskReducer ts a = taskReducer ts' a') ∧
    (∀ (ts : List Task) (t : Task) (i : Nat),
      taskReducer ts ⟨"ADD", t, i⟩ = t :: ts) ∧
    (∀ (ts : List Task) (t : Task) (i : Nat),
      taskReducer ts ⟨"DELETE", t, i⟩ = ts.filter (fun task => i ≠ task.id)) ∧
    (∀ (ts : List Task) (a : TaskAction), a.type ≠ "ADD" → a.type ≠ "DELETE" →
      taskReducer ts a = ts) := by
  refine ⟨?_, ?_, ?_, ?_⟩
  · intro ts ts' a a' hts ha; rw [hts, ha]
  · intro ts t i; simp [taskReducer]
  · intro ts t i; simp [taskReducer]
  · intro ts a h1 h2; simp [taskReducer, h1, h2]

/-- Witness for C8 at concrete inputs: the ADD equation at a concrete list and
task, and the default branch at a concrete unknown tag. -/
theorem taskReducer_pure_deterministic_witness :
    taskReducer [⟨1, "a"⟩] ⟨"ADD", ⟨2, "b"⟩, 0⟩ = [⟨2, "b"⟩, ⟨1, "a"⟩] ∧
    taskReducer [⟨1, "a"⟩] ⟨"CLEAR", ⟨2, "b"⟩, 0⟩ = [⟨1, "a"⟩] := by
  constructor
  · exact taskReducer_pure_deterministic.2.1 [⟨1, "a"⟩] ⟨2, "b"⟩ 0
  · exact taskReducer_pure_deterministic.2.2.2 [⟨1, "a"⟩] ⟨"CLEAR", ⟨2, "b"⟩, 0⟩
      (by decide) (by decide)

/-- C9: ADD of a task with a fresh id followed by DELETE of that id
round-trips; the DELETE action's (runtime-irrelevant) `task` payload is
universally quantified to show the result does not depend on it. -/
theorem taskReducer_add_delete_roundtrip (ts : List Task) (t d : Task)
    (h : ∀ x ∈ ts, x.id ≠ t.id) :
    taskReducer (taskReducer ts ⟨"ADD", t, 0⟩) ⟨"DELETE", d, t.id⟩ = ts := by
  simp only [taskReducer]
  norm_num
  rw [if_neg (by decide)]
  exact List.filter_eq_self.mpr (fun x hx => by simpa using (h x hx).symm)

/-- Witness for C9: adding task id 5 to a list with ids 1 and 2 and then
deleting id 5 restores the original list. -/
theorem taskReducer_add_delete_roundtrip_witness :
    taskReducer (taskReducer [⟨1, "a"⟩, ⟨2, "b"⟩] ⟨"ADD", ⟨5, "x"⟩, 0⟩)
      ⟨"DELETE", ⟨0, ""⟩, 5⟩ = [⟨1, "a"⟩, ⟨2, "b"⟩] :=
  taskReducer_add_delete_roundtrip [⟨1, "a"⟩, ⟨2, "b"⟩] ⟨5, "x"⟩ ⟨0, ""⟩
    (by decide)

/-- C10: `AuthReducer` ignores its state argument entirely — it returns
`action.user` on a LOGIN action, and the empty string on a LOGOUT action and
on any action with an unrecognised tag (the final `return ""` resets rather
than preserving the prior user). -/
theorem authReducer_state_independent :
    (∀ (s s' : String) (a : LogAction), AuthReducer s a = AuthReducer s' a) ∧
    (∀ (s u : String), AuthReducer s ⟨"LOGIN", u⟩ = u) ∧
    (∀ (s : String) (a : LogAction), a.type = "LOGOUT" → AuthReducer s a = "") ∧
    (∀ (s : String) (a : LogAction), a.type ≠ "LOGIN" → a.type ≠ "LOGOUT" →
      AuthReducer s a = "") := by
  refine ⟨?_, ?_, ?_, ?_⟩
  · intro s s' a; simp [AuthReducer]
  · intro s u; simp [AuthReducer]
  · intro s a h
    simp [AuthReducer, h]
  · intro s a h1 h2; simp [AuthReducer, h1, h2]

/-- Witness for C10: an action with the unrecognised tag "REFRESH" resets a
logged-in state "mo" to "" rather than preserving it, and LOGIN works from any
state. -/
theorem authReducer_state_independent_witness :
    AuthReducer "mo" ⟨"REFRESH", "ignored"⟩ = "" ∧
    AuthReducer "anything" ⟨"LOGIN", "mo"⟩ = "mo" := by
  constructor
  · exact authReducer_state_independent.2.2.2 "mo" ⟨"REFRESH", "ignored"⟩
      (by decide) (by decide)
  · exact authReducer_state_independent.2.1 "anything" "mo"

/-! ## Optimistic add-todo mutation (useAddTodo, Notes/01 lines 936-979) -/

namespace ReactQuery

/-- `Todo` from useTodos.ts: `{ id, title, userId, completed }`. -/
structure Todo where
  id : Nat
  title : String
  userId : Nat
  completed : Bool
deriving DecidableEq, Repr

/-- A `Todo` object at JavaScript runtime: the record value together with an
object identity (`ref`), so that the source's `todo === newTodo` reference
comparison in `onSuccess` can be embedded faithfully. -/
structure TodoObj where
  ref : Nat
  val : Todo
deriving DecidableEq, Repr

/-- The cache entry for the key `CACHE_KEY_TODOS = ["todos"]`: `none` when the
entry is absent (`getQueryData` returns `undefined`), `some todos` when
present. -/
abbrev TodosCache : Type := Option (List TodoObj)

/-- `AddTodoContext` from useAddTodo: `{ prvsTodos: Todo[] }`. -/
structure AddTodoContext where
  prvsTodos : List TodoObj
deriving DecidableEq, Repr

/-- `onMutate` from useAddTodo: reads `prvsTodos = getQueryData(...) || []`,
then `setQueryData(CACHE_KEY_TODOS, (todos) => [newTodo, ...(todos || [])])`
(creating the entry when absent), and returns the context `{ prvsTodos }`. -/
def onMutate (cache : TodosCache) (newTodo : TodoObj) :
    TodosCache × AddTodoContext :=
  let prvsTodos := (cache : Option (List TodoObj)).getD []
  (some (newTodo :: (cache : Option (List TodoObj)).getD []), ⟨prvsTodos⟩)

/-- `onSuccess` from useAddTodo:
`setQueryData(CACHE_KEY_TODOS, (todos) => todos?.map((todo) => (todo === newTodo ? savedTodo : todo)))`;
`===` is reference equality, embedded as comparison of the `ref` identity; a
`none` cache maps to `none` (the updater returns `undefined`, a no-op). -/
def onSuccess (cache : TodosCache) (savedTodo newTodo : TodoObj) : TodosCache :=
  (cache : Option (List TodoObj)).map
    (List.map (fun todo => if todo.ref = newTodo.ref then savedTodo else todo))

/-- `onError` from useAddTodo: `if (!context) return;` then
`setQueryData(CACHE_KEY_TODOS, context.prvsTodos)`. -/
def onError (cache : TodosCache) (context : Option AddTodoContext) : TodosCache :=
  match context with
  | none => cache
  | some c => some c.prvsTodos

/-- A full failed-mutation run: the optimistic write of `onMutate` followed by
the `onError` rollback with the context `onMutate` returned. -/
def failedMutation (cache : TodosCache) (newTodo : TodoObj) : TodosCache :=
  let r := onMutate cache newTodo
  onError r.1 (some r.2)

/-- A full successful-mutation run: the optimistic write of `onMutate`
followed by the `onSuccess` reconciliation with the server-returned
`savedTodo`. -/
def successfulMutation (cache : TodosCache) (newTodo savedTodo : TodoObj) :
    TodosCache :=
  let r := onMutate cache newTodo
  onSuccess r.1 savedTodo newTodo

end ReactQuery

open ReactQuery

/-- C1 counterexample: with the `["todos"]` cache entry absent (`none`) before
the mutation, a failed mutation does not restore absence — `onMutate`
snapshots `getQueryData(...) || []` as `[]`, so rollback writes an (existing,
empty) entry `some []`, which is not the pre-mutation state `none`. -/
theorem failedMutation_absent_entry_not_restored :
    failedMutation none ⟨0, ⟨0, "X", 1, false⟩⟩ = some [] ∧
    failedMutation none ⟨0, ⟨0, "X", 1, false⟩⟩ ≠ none := by
  constructor
  · rfl
  · decide

/-- C1 amended: after a failed mutation, the `["todos"]` entry holds exactly
the pre-mutation list whenever the entry was present before the mutation; when
the entry was absent, rollback instead leaves a present entry holding the
empty list (the snapshot `getQueryData(...) || []` collapses absence to `[]`). -/
theorem failedMutation_rollback_exact :
    (∀ (todos : List TodoObj) (newTodo : TodoObj),
      failedMutation (some todos) newTodo = some todos) ∧
    (∀ newTodo : TodoObj, failedMutation none newTodo = some []) := by
  constructor
  · intro todos newTodo; rfl
  · intro newTodo; rfl

/-- C3: when the mutation succeeds, the speculative object prepended by
`onMutate` is replaced in place by the server-returned object (reference
equality singles out exactly the speculative record, whose object identity is
fresh), so the cache becomes `savedTodo :: todos`; in particular, when no
pre-existing todo has the speculative id, no record with that id remains, and
the server record is present in its place at the head. -/
theorem successfulMutation_replaces_speculative
    (todos : List TodoObj) (newTodo savedTodo : TodoObj)
    (hfresh : ∀ x ∈ todos, x.ref ≠ newTodo.ref) :
    successfulMutation (some todos) newTodo savedTodo =
      some (savedTodo :: todos) ∧
    ((∀ x ∈ todos, x.val.id ≠ newTodo.val.id) →
      savedTodo.val.id ≠ newTodo.val.id →
      ∀ x ∈ savedTodo :: todos, x.val.id ≠ newTodo.val.id) := by
  constructor
  · have hmap : todos.map
        (fun todo => if todo.ref = newTodo.ref then savedTodo else todo) = todos := by
      have h := List.map_congr_left (l := todos)
        (f := fun todo : TodoObj => if todo.ref = newTodo.ref then savedTodo else todo)
        (g := id) (fun x hx => if_neg (hfresh x hx))
      simpa using h
    simp [successfulMutation, onMutate, onSuccess, hmap]
  · intro hids hsaved x hx
    rcases List.mem_cons.mp hx with h | h
    · rw [h]; exact hsaved
    · exact hids x h

/-- Witness for C3: the cache holds one todo (id 7), the speculative todo has
id 0 and a fresh object identity, the server returns id 42: after `onSuccess`
the cache is `[id 42, id 7]`, with no id-0 record left. -/
theorem successfulMutation_replaces_speculative_witness :
    successfulMutation (some [⟨1, ⟨7, "A", 1, false⟩⟩])
        ⟨2, ⟨0, "X", 1, false⟩⟩ ⟨3, ⟨42, "X", 1, false⟩⟩ =
      some [⟨3, ⟨42, "X", 1, false⟩⟩, ⟨1, ⟨7, "A", 1, false⟩⟩] ∧
    (∀ x ∈ [(⟨3, ⟨42, "X", 1, false⟩⟩ : TodoObj), ⟨1, ⟨7, "A", 1, false⟩⟩],
      x.val.id ≠ 0) :=
  ⟨(successfulMutation_replaces_speculative [⟨1, ⟨7, "A", 1, false⟩⟩]
      ⟨2, ⟨0, "X", 1, false⟩⟩ ⟨3, ⟨42, "X", 1, false⟩⟩ (by decide)).1,
   (successfulMutation_replaces_speculative [⟨1, ⟨7, "A", 1, false⟩⟩]
      ⟨2, ⟨0, "X", 1, false⟩⟩ ⟨3, ⟨42, "X", 1, false⟩⟩ (by decide)).2
      (by decide) (by decide)⟩

/-! ## Zustand counter store (src/unnamed/part_007, Notes/02 Part-2) -/

namespace CounterZustand

/-- `CounterStore` from the counter store file, after the Part-2 notes add the
`max` property: `{ counter: number; max: number }` (functions live outside the
state here). -/
structure CounterStore where
  counter : Nat
  max : Nat
deriving DecidableEq, Repr

/-- `increament` from the store: `set((store) => ({ counter: store.counter + 1 }))`. -/
def increament (s : CounterStore) : CounterStore :=
  { s with counter := s.counter + 1 }

/-- `reset` from the store as modified in the Part-2 notes: instead of
resetting the counter it sets `max` to 10 — `set(() => ({ max: 10 }))`. -/
def reset (s : CounterStore) : CounterStore :=
  { s with max := 10 }

/-- A store object at JavaScript runtime: the state value plus an object
identity (`version`); every zustand `set` produces a fresh state object, so
the version strictly increases on each update. -/
abbrev StoreObj : Type := Nat × CounterStore

/-- Modelled from the spec: a zustand `set` call merges the update into a
fresh state object ("plain subscribers are always notified" relies on the new
object identity); the version tag records the fresh identity. -/
def setState (st : StoreObj) (f : CounterStore → CounterStore) : StoreObj :=
  (st.1 + 1, f st.2)

/-- Modelled from the spec: a subscriber without a selector compares the
state objects themselves (`Object.is` on references), so it is notified
whenever the object identity changed. -/
def plainNotified (old new : StoreObj) : Bool :=
  old.1 ≠ new.1

/-- Modelled from the spec: a subscriber with selector `sel` is notified only
if `sel(newData)` is not equal (by value) to `sel(previousData)`. -/
def selectorNotified (sel : CounterStore → Nat) (old new : StoreObj) : Bool :=
  sel old.2 ≠ sel new.2

end CounterZustand

open CounterZustand

/-- C4: across any single store update, a subscriber selecting `counter` is
notified iff the `counter` value changed — hence never on `reset` (which only
touches `max`) and always on `increament` — while a plain subscriber (no
selector) is notified on every update, `reset` and `increament` included. -/
theorem counterStore_selector_notification :
    (∀ (st : StoreObj) (f : CounterStore → CounterStore),
      selectorNotified (fun s => s.counter) st (setState st f) = true ↔
        (f st.2).counter ≠ st.2.counter) ∧
    (∀ st : StoreObj, selectorNotified (fun s => s.counter) st (setState st reset) = false) ∧
    (∀ st : StoreObj, selectorNotified (fun s => s.counter) st (setState st increament) = true) ∧
    (∀ st : StoreObj, plainNotified st (setState st reset) = true) ∧
    (∀ st : StoreObj, plainNotified st (setState st increament) = true) := by
  refine ⟨?_, ?_, ?_, ?_, ?_⟩
  · intro st f
    simp only [selectorNotified, setState, decide_eq_true_eq]
    exact ⟨fun h => fun he => h he.symm, fun h => fun he => h he.symm⟩
  · intro st; simp [selectorNotified, setState, reset]
  · intro st; simp [selectorNotified, setState, increament]
  · intro st; simp [plainNotified, setState]
  · intro st; simp [plainNotified, setState]

/-! ## Cache entry state machine (spec section 4.3; useTodos.ts sets
`staleTime: 100 * 1000, keepPreviousData: true` on the `["todos"]` entry) -/

namespace CacheEntrySM

/-- Entry status from the spec's data model: `idle | loading | success | error`. -/
inductive Status where
  | idle
  | loading
  | success
  | error
deriving DecidableEq, Repr

/-- Modelled from the spec: the cache entry attributes the staleness and
refetch transitions touch (`status`, `data`, `error`, `lastUpdatedAt`); the
implementation of the entry record is not in the repository sources, only its
configuration (useTodos.ts) and the spec's description of it. -/
structure CacheEntry where
  status : Status
  data : Option (List ReactQuery.Todo)
  error : Option String
  lastUpdatedAt : Nat
deriving DecidableEq, Repr

/-- Modelled from the spec: a stale `success`/`error` entry transitions back
to `loading` for a refetch while retaining the previous `data`
(stale-while-revalidate). -/
def refetchTransition (e : CacheEntry) : CacheEntry :=
  { e with status := Status.loading }

/-- Modelled from the spec: on fetch failure (after retries) the entry
transitions to `error` carrying the error payload; the last known good `data`
is not cleared. -/
def errorTransition (e : CacheEntry) (err : String) : CacheEntry :=
  { e with status := Status.error, error := some err }

end CacheEntrySM

open CacheEntrySM

/-- C7: when an entry in status `success` or `error` is found stale and
transitions back to `loading`, its `data` field is unchanged, and a transition
to `error` likewise retains the last known good `data`. -/
theorem entry_refetch_retains_data (e : CacheEntry) (err : String)
    (h : e.status = Status.success ∨ e.status = Status.error) :
    (refetchTransition e).data = e.data ∧
    (refetchTransition e).status = Status.loading ∧
    (errorTransition e err).data = e.data ∧
    (errorTransition e err).status = Status.error := by
  exact ⟨rfl, rfl, rfl, rfl⟩

/-- Witness for C7: a success entry holding one todo keeps that todo through
the loading transition and through the error transition. -/
theorem entry_refetch_retains_data_witness :
    (refetchTransition ⟨Status.success, some [⟨7, "A", 1, false⟩], none, 5⟩).data =
      some [⟨7, "A", 1, false⟩] ∧
    (errorTransition ⟨Status.success, some [⟨7, "A", 1, false⟩], none, 5⟩ "boom").data =
      some [⟨7, "A", 1, false⟩] :=
  ⟨(entry_refetch_retains_data ⟨Status.success, some [⟨7, "A", 1, false⟩], none, 5⟩
      "boom" (Or.inl rfl)).1,
   (entry_refetch_retains_data ⟨Status.success, some [⟨7, "A", 1, false⟩], none, 5⟩
      "boom" (Or.inl rfl)).2.2.1⟩

/-! ## Hierarchical invalidation (spec section 4.1/6; Notes/01 lines 628-633:
`invalidateQueries({ queryKey: ["todos"] })` "will invalidate all queries that
starts with the provided query key") -/

namespace Invalidation

/-- A segment of a hierarchical cache key: a string or a number, as in
`["users", 7, "posts"]`. -/
inductive Segment where
  | str (s : String)
  | num (n : Nat)
deriving DecidableEq, Repr

/-- A cache key: an ordered sequence of segments. -/
abbrev QKey : Type := List Segment

/-- Modelled from the spec: `isPrefixOf(a, b)` — every segment of `a` matches
the corresponding leading segment of `b`. -/
def keyIsPrefixOf : QKey → QKey → Bool
  | [], _ => true
  | _ :: _, [] => false
  | a :: as, b :: bs => a = b && keyIsPrefixOf as bs

/-- Modelled from the spec: the per-key bookkeeping invalidation needs — the
key, the staleness mark, and the number of active observers. -/
structure StoreEntry where
  key : QKey
  stale : Bool
  observerCount : Nat
deriving DecidableEq, Repr

/-- Modelled from the spec: `invalidate(keyOrPrefix)` marks every entry whose
key extends the given prefix as stale. -/
def invalidate (p : QKey) (store : List StoreEntry) : List StoreEntry :=
  store.map (fun e => if keyIsPrefixOf p e.key then { e with stale := true } else e)

/-- Modelled from the spec: the keys refetched after an invalidation — the
stale entries that have at least one active observer. -/
def refetchedKeys (store : List StoreEntry) : List QKey :=
  (store.filter (fun e => e.stale && decide (0 < e.observerCount))).map StoreEntry.key

end Invalidation

open Invalidation

/-- C6: invalidating a prefix marks every entry whose key extends it stale —
in particular `["users"]` is a prefix of `["users", 7, "posts"]` — and every
such entry with an active observer is refetched. -/
theorem invalidate_prefix_marks_children (store : List StoreEntry)
    (p : QKey) (e : StoreEntry) (hmem : e ∈ store)
    (hpre : keyIsPrefixOf p e.key = true) :
    keyIsPrefixOf [Segment.str "users"]
      [Segment.str "users", Segment.num 7, Segment.str "posts"] = true ∧
    { e with stale := true } ∈ invalidate p store ∧
    (0 < e.observerCount → e.key ∈ refetchedKeys (invalidate p store)) := by
  have hinv : { e with stale := true } ∈ invalidate p store := by
    refine List.mem_map.mpr ⟨e, hmem, ?_⟩
    simp [hpre]
  refine ⟨rfl, hinv, fun hobs => ?_⟩
  have hfil : { e with stale := true } ∈
      (invalidate p store).filter (fun x => x.stale && decide (0 < x.observerCount)) := by
    refine List.mem_filter.mpr ⟨hinv, ?_⟩
    simpa using hobs
  simpa [refetchedKeys] using List.mem_map_of_mem StoreEntry.key hfil

/-- Witness for C6: a store holding the child entry `["users", 7, "posts"]`
with one active observer; `invalidate(["users"])` marks it stale and its key
is refetched. -/
theorem invalidate_prefix_marks_children_witness :
    ({ key := [Segment.str "users", Segment.num 7, Segment.str "posts"],
       stale := true, observerCount := 1 } : StoreEntry) ∈
      invalidate [Segment.str "users"]
        [⟨[Segment.str "users", Segment.num 7, Segment.str "posts"], false, 1⟩] ∧
    [Segment.str "users", Segment.num 7, Segment.str "posts"] ∈
      refetchedKeys (invalidate [Segment.str "users"]
        [⟨[Segment.str "users", Segment.num 7, Segment.str "posts"], false, 1⟩]) :=
  ⟨(invalidate_prefix_marks_children
      [⟨[Segment.str "users", Segment.num 7, Segment.str "posts"], false, 1⟩]
      [Segment.str "users"]
      ⟨[Segment.str "users", Segment.num 7, Segment.str "posts"], false, 1⟩
      (by decide) (by decide)).2.1,
   (invalidate_prefix_marks_children
      [⟨[Segment.str "users", Segment.num 7, Segment.str "posts"], false, 1⟩]
      [Segment.str "users"]
      ⟨[Segment.str "users", Segment.num 7, Segment.str "posts"], false, 1⟩
      (by decide) (by decide)).2.2 (by decide)⟩

/-! ## Query executor retry policy (spec sections 4.3/7; src/src/main.tsx
configures the query client whose commented-out explicit options show
`retry: 3`, the library default the spec describes) -/

namespace QueryRetry

/-- Final status a query settles into: `success` with data, or `error` once
retries are exhausted.  Returning this closed type is the embedding of "no
exception escapes across the fetch boundary uncaught". -/
inductive QueryStatus (D : Type) where
  | success (d : D)
  | error
deriving DecidableEq, Repr

/-- Modelled from the spec: the retry loop of the Query Executor.  `outcomes i`
is the result of the i-th fetch attempt (`none` = NetworkError).  `rid` is the
in-flight request identity, recorded for every call issued; `fuel` is the
number of retries still allowed.  The executor stops at the first success and
otherwise retries, surfacing `error` only when the fuel is exhausted. -/
def runRetry {D : Type} (outcomes : Nat → Option D) (rid : Nat) :
    Nat → Nat → QueryStatus D × List Nat
  | attempt, 0 =>
    (match outcomes attempt with
     | some d => QueryStatus.success d
     | none => QueryStatus.error, [rid])
  | attempt, fuel + 1 =>
    match outcomes attempt with
    | some d => (QueryStatus.success d, [rid])
    | none =>
      let r := runRetry outcomes rid (attempt + 1) fuel
      (r.1, rid :: r.2)

/-- Modelled from the spec: execute a query with up to `retryCount` retries
(so at most `retryCount + 1` fetch calls), starting at attempt 0. -/
def executeQuery {D : Type} (outcomes : Nat → Option D) (retryCount rid : Nat) :
    QueryStatus D × List Nat :=
  runRetry outcomes rid 0 retryCount

end QueryRetry

open QueryRetry

lemma runRetry_calls_le {D : Type} (outcomes : Nat → Option D) (rid : Nat) :
    ∀ (fuel attempt : Nat),
      (runRetry outcomes rid attempt fuel).2.length ≤ fuel + 1 := by
  intro fuel
  induction fuel with
  | zero => intro attempt; cases h : outcomes attempt <;> simp [runRetry]
  | succ n ih =>
    intro attempt
    cases h : outcomes attempt with
    | some d => simp [runRetry, h]
    | none =>
      have := ih (attempt + 1)
      simp only [runRetry, h, List.length_cons]
      omega

lemma runRetry_same_rid {D : Type} (outcomes : Nat → Option D) (rid : Nat) :
    ∀ (fuel attempt : Nat),
      ∀ r ∈ (runRetry outcomes rid attempt fuel).2, r = rid := by
  intro fuel
  induction fuel with
  | zero => intro attempt r hr; cases h : outcomes attempt <;>
      (rw [runRetry] at hr; simp_all)
  | succ n ih =>
    intro attempt r hr
    cases h : outcomes attempt with
    | some d => rw [runRetry] at hr; simp_all
    | none =>
      rw [runRetry] at hr
      simp only [h] at hr
      rcases List.mem_cons.mp hr with h' | h'
      · exact h'
      · exact ih (attempt + 1) r h'

lemma runRetry_error_iff {D : Type} (outcomes : Nat → Option D) (rid : Nat) :
    ∀ (fuel attempt : Nat),
      ((runRetry outcomes rid attempt fuel).1 = QueryStatus.error ↔
        ∀ i, attempt ≤ i → i ≤ attempt + fuel → outcomes i = none) := by
  intro fuel
  induction fuel with
  | zero =>
    intro attempt
    cases h : outcomes attempt with
    | some d =>
      simp only [runRetry, h]
      constructor
      · intro hc; cases hc
      · intro hall
        have := hall attempt le_rfl (by omega)
        rw [h] at this; cases this
    | none =>
      simp only [runRetry, h]
      constructor
      · intro _ i h1 h2
        have hi : i = attempt := by omega
        rw [hi]
        exact h
      · intro _
        trivial
  | succ n ih =>
    intro attempt
    cases h : outcomes attempt with
    | some d =>
      simp only [runRetry, h]
      constructor
      · intro hc; cases hc
      · intro hall
        have := hall attempt le_rfl (by omega)
        rw [h] at this; cases this
    | none =>
      simp only [runRetry, h]
      rw [ih (attempt + 1)]
      constructor
      · intro hall i h1 h2
        rcases Nat.eq_or_lt_of_le h1 with he | hl
        · rw [← he]; exact h
        · exact hall i (by omega) (by omega)
      · intro hall i h1 h2
        exact hall i (by omega) (by omega)

lemma runRetry_error_calls {D : Type} (outcomes : Nat → Option D) (rid : Nat) :
    ∀ (fuel attempt : Nat),
      (runRetry outcomes rid attempt fuel).1 = QueryStatus.error →
      (runRetry outcomes rid attempt fuel).2.length = fuel + 1 := by
  intro fuel
  induction fuel with
  | zero => intro attempt _; cases h : outcomes attempt <;> simp [runRetry, h]
  | succ n ih =>
    intro attempt herr
    cases h : outcomes attempt with
    | some d => rw [runRetry] at herr; simp [h] at herr
    | none =>
      rw [runRetry] at herr ⊢
      simp only [h] at herr ⊢
      simp only [List.length_cons]
      rw [ih (attempt + 1) herr]

lemma runRetry_total {D : Type} (outcomes : Nat → Option D) (rid : Nat) :
    ∀ (fuel attempt : Nat),
      (runRetry outcomes rid attempt fuel).1 = QueryStatus.error ∨
      ∃ d, (runRetry outcomes rid attempt fuel).1 = QueryStatus.success d := by
  intro fuel
  induction fuel with
  | zero => intro attempt; cases h : outcomes attempt with
    | some d => right; exact ⟨d, by simp [runRetry, h]⟩
    | none => left; simp [runRetry, h]
  | succ n ih =>
    intro attempt
    cases h : outcomes attempt with
    | some d => right; exact ⟨d, by rw [runRetry]; simp [h]⟩
    | none =>
      rcases ih (attempt + 1) with h' | ⟨d, h'⟩
      · left; rw [runRetry]; simpa [h] using h'
      · right; exact ⟨d, by rw [runRetry]; simpa [h] using h'⟩

/-- C5: the query executor issues at most `retryCount + 1` fetch calls, every
call carries the same request identity, the entry surfaces `error` exactly
when all `retryCount + 1` attempts fail (so the error transition happens only
after the retries are exhausted: an error outcome accounts for all
`retryCount + 1` calls), and every run settles into `success` or `error` — no
exception escapes the fetch boundary.  With the default `retryCount = 3` this
is retry-up-to-3. -/
theorem query_retry_policy {D : Type} (outcomes : Nat → Option D)
    (retryCount rid : Nat) :
    (executeQuery outcomes retryCount rid).2.length ≤ retryCount + 1 ∧
    (∀ r ∈ (executeQuery outcomes retryCount rid).2, r = rid) ∧
    ((executeQuery outcomes retryCount rid).1 = QueryStatus.error ↔
      ∀ i, i ≤ retryCount → outcomes i = none) ∧
    ((executeQuery outcomes retryCount rid).1 = QueryStatus.error →
      (executeQuery outcomes retryCount rid).2.length = retryCount + 1) ∧
    ((executeQuery outcomes retryCount rid).1 = QueryStatus.error ∨
      ∃ d, (executeQuery outcomes retryCount rid).1 = QueryStatus.success d) := by
  refine ⟨runRetry_calls_le outcomes rid retryCount 0,
          runRetry_same_rid outcomes rid retryCount 0, ?_,
          runRetry_error_calls outcomes rid retryCount 0,
          runRetry_total outcomes rid retryCount 0⟩
  rw [executeQuery, runRetry_error_iff outcomes rid retryCount 0]
  constructor
  · intro hall i hi; exact hall i (by omega) (by omega)
  · intro hall i _ hi; exact hall i (by omega)

/-- Witness for C5 at the default retry count 3: with every attempt failing,
the run surfaces `error` after exactly 4 calls, all carrying request id 7. -/
theorem query_retry_policy_witness :
    (executeQuery (fun _ => (none : Option Nat)) 3 7).1 = QueryStatus.error ∧
    (executeQuery (fun _ => (none : Option Nat)) 3 7).2.length = 4 ∧
    (executeQuery (fun _ => (none : Option Nat)) 3 7).2 = [7, 7, 7, 7] := by
  have h := query_retry_policy (fun _ => (none : Option Nat)) 3 7
  have herr : (executeQuery (fun _ => (none : Option Nat)) 3 7).1 =
      QueryStatus.error := h.2.2.1.mpr (fun i _ => rfl)
  exact ⟨herr, h.2.2.2.1 herr, by decide⟩

/-! ## Per-key deduplicated fetching (spec sections 3/4.3/8; useTodos.ts sets
`staleTime: 100 * 1000` for the `["todos"]` key) -/

namespace QueryDedup

/-- Modelled from the spec: the per-key executor state — cached `data`,
`lastUpdatedAt`, the number of in-flight fetches, the callers attached to the
in-flight fetch, the total number of network calls issued, and the results
each caller has received. -/
structure QState where
  data : Option Nat
  lastUpdatedAt : Option Nat
  inFlightCount : Nat
  pendingCallers : List Nat
  fetchCount : Nat
  servedResults : List (Nat × Nat)
deriving DecidableEq, Repr

/-- The state of a key before its first request: no data, nothing in flight,
no calls issued. -/
def initState : QState :=
  { data := none, lastUpdatedAt := none, inFlightCount := 0,
    pendingCallers := [], fetchCount := 0, servedResults := [] }

/-- Modelled from the spec: an entry is fresh iff it has data and
`now - lastUpdatedAt ≤ staleAfterMs` (stale means strictly past the window). -/
def isFresh (staleAfterMs now : Nat) (s : QState) : Bool :=
  match s.data, s.lastUpdatedAt with
  | some _, some t => now - t ≤ staleAfterMs
  | _, _ => false

/-- Modelled from the spec: a logical `query` call — a fresh entry is served
synchronously from the cache with no network call; otherwise, if a fetch is
already in flight the caller attaches to it; otherwise a single new fetch
starts. -/
def queryCall (staleAfterMs caller now : Nat) (s : QState) : QState :=
  if isFresh staleAfterMs now s then
    { s with servedResults := (caller, s.data.getD 0) :: s.servedResults }
  else if s.inFlightCount = 0 then
    { s with inFlightCount := 1, fetchCount := s.fetchCount + 1,
             pendingCallers := caller :: s.pendingCallers }
  else
    { s with pendingCallers := caller :: s.pendingCallers }

/-- Modelled from the spec: completion of the in-flight fetch — the value is
written back with a fresh `lastUpdatedAt`, the fetch leaves flight, and every
attached caller receives the same value. -/
def completeCall (value now : Nat) (s : QState) : QState :=
  { s with data := some value, lastUpdatedAt := some now, inFlightCount := 0,
           pendingCallers := [],
           servedResults := s.pendingCallers.map (fun c => (c, value)) ++ s.servedResults }

/-- An event of the per-key executor: a logical query call or a fetch
completion. -/
inductive QEvent where
  | query (caller now : Nat)
  | complete (value now : Nat)
deriving DecidableEq, Repr

/-- One step of the per-key executor. -/
def qstep (staleAfterMs : Nat) (s : QState) : QEvent → QState
  | QEvent.query caller now => queryCall staleAfterMs caller now s
  | QEvent.complete value now => completeCall value now s

/-- Run the per-key executor from the initial state over a list of events. -/
def qrun (staleAfterMs : Nat) (evs : List QEvent) : QState :=
  evs.foldl (qstep staleAfterMs) initState

end QueryDedup

open QueryDedup

lemma qstep_inFlight_le (staleAfterMs : Nat) (s : QState) (e : QEvent)
    (h : s.inFlightCount ≤ 1) : (qstep staleAfterMs s e).inFlightCount ≤ 1 := by
  cases e with
  | query caller now =>
    simp only [qstep, queryCall]
    split
    · exact h
    · split <;> simpa using h
  | complete value now => simp [qstep, completeCall]

lemma qrun_inFlight_le_aux (staleAfterMs : Nat) :
    ∀ (evs : List QEvent) (s : QState), s.inFlightCount ≤ 1 →
      (evs.foldl (qstep staleAfterMs) s).inFlightCount ≤ 1 := by
  intro evs
  induction evs with
  | nil => intro s h; exact h
  | cons e rest ih =>
    intro s h
    exact ih (qstep staleAfterMs s e) (qstep_inFlight_le staleAfterMs s e h)

/-- C2: (a) two query calls for the same key while the first fetch is still in
flight issue exactly one network call, and on completion both callers receive
the identical value; (b) if the first fetch completes between the two calls
and the second call arrives within `staleAfterMs` of the first, the second is
served synchronously from the cache — still exactly one network call, both
callers holding the identical value (the instance `staleAfterMs = 100000`
matches `staleTime: 100 * 1000` in useTodos); (c) in every reachable state at
most one fetch is in flight. -/
theorem query_dedup_single_fetch (staleAfterMs t1 t2 tc v : Nat)
    (h1 : t1 ≤ tc) (h2 : tc ≤ t2) (h3 : t2 - t1 ≤ staleAfterMs) :
    ((completeCall v tc (queryCall staleAfterMs 2 t2
        (queryCall staleAfterMs 1 t1 initState))).fetchCount = 1 ∧
      (1, v) ∈ (completeCall v tc (queryCall staleAfterMs 2 t2
        (queryCall staleAfterMs 1 t1 initState))).servedResults ∧
      (2, v) ∈ (completeCall v tc (queryCall staleAfterMs 2 t2
        (queryCall staleAfterMs 1 t1 initState))).servedResults) ∧
    ((queryCall staleAfterMs 2 t2 (completeCall v tc
        (queryCall staleAfterMs 1 t1 initState))).fetchCount = 1 ∧
      (1, v) ∈ (queryCall staleAfterMs 2 t2 (completeCall v tc
        (queryCall staleAfterMs 1 t1 initState))).servedResults ∧
      (2, v) ∈ (queryCall staleAfterMs 2 t2 (completeCall v tc
        (queryCall staleAfterMs 1 t1 initState))).servedResults) ∧
    (∀ evs : List QEvent, (qrun staleAfterMs evs).inFlightCount ≤ 1) := by
  have hs1 : queryCall staleAfterMs 1 t1 initState =
      { data := none, lastUpdatedAt := none, inFlightCount := 1,
        pendingCallers := [1], fetchCount := 1, servedResults := [] } := rfl
  refine ⟨?_, ?_, ?_⟩
  · rw [hs1]
    have hs2 : queryCall staleAfterMs 2 t2
        ({ data := none, lastUpdatedAt := none, inFlightCount := 1,
           pendingCallers := [1], fetchCount := 1, servedResults := [] } : QState) =
        { data := none, lastUpdatedAt := none, inFlightCount := 1,
          pendingCallers := [2, 1], fetchCount := 1, servedResults := [] } := rfl
    rw [hs2]
    refine ⟨rfl, ?_, ?_⟩ <;> simp [completeCall]
  · rw [hs1]
    have hsc : completeCall v tc
        ({ data := none, lastUpdatedAt := none, inFlightCount := 1,
           pendingCallers := [1], fetchCount := 1, servedResults := [] } : QState) =
        { data := some v, lastUpdatedAt := some tc, inFlightCount := 0,
          pendingCallers := [], fetchCount := 1, servedResults := [(1, v)] } := rfl
    rw [hsc]
    have hfresh : isFresh staleAfterMs t2
        ({ data := some v, lastUpdatedAt := some tc, inFlightCount := 0,
           pendingCallers := [], fetchCount := 1,
           servedResults := [(1, v)] } : QState) = true := by
      simp only [isFresh, decide_eq_true_eq]
      omega
    rw [queryCall, if_pos hfresh]
    refine ⟨rfl, ?_, ?_⟩ <;> simp
  · intro evs
    exact qrun_inFlight_le_aux staleAfterMs evs initState (by simp [initState])

/-- Witness for C2 with `staleAfterMs = 100000` (the `staleTime: 100 * 1000`
of useTodos), calls at times 0 and 50, completion at time 10 with value 5:
both interleavings issue exactly one fetch and serve value 5 to both callers. -/
theorem query_dedup_single_fetch_witness :
    ((completeCall 5 10 (queryCall 100000 2 50
        (queryCall 100000 1 0 initState))).fetchCount = 1 ∧
      (1, 5) ∈ (completeCall 5 10 (queryCall 100000 2 50
        (queryCall 100000 1 0 initState))).servedResults ∧
      (2, 5) ∈ (completeCall 5 10 (queryCall 100000 2 50
        (queryCall 100000 1 0 initState))).servedResults) ∧
    ((queryCall 100000 2 50 (completeCall 5 10
        (queryCall 100000 1 0 initState))).fetchCount = 1 ∧
      (1, 5) ∈ (queryCall 100000 2 50 (completeCall 5 10
        (queryCall 100000 1 0 initState))).servedResults ∧
      (2, 5) ∈ (queryCall 100000 2 50 (completeCall 5 10
        (queryCall 100000 1 0 initState))).servedResults) :=
  ⟨(query_dedup_single_fetch 100000 0 50 10 5 (by decide) (by decide)
      (by decide)).1,
   (query_dedup_single_fetch 100000 0 50 10 5 (by decide) (by decide)
      (by decide)).2.1⟩

/-- Witness for C4 at the concrete store `{ counter := 3, max := 5 }`: a
`counter` selector stays silent on `reset` but fires on `increament`, while a
plain subscriber is notified by `reset` too. -/
theorem counterStore_selector_notification_witness :
    selectorNotified (fun s => s.counter) (0, ⟨3, 5⟩)
      (setState (0, ⟨3, 5⟩) reset) = false ∧
    selectorNotified (fun s => s.counter) (0, ⟨3, 5⟩)
      (setState (0, ⟨3, 5⟩) increament) = true ∧
    plainNotified (0, ⟨3, 5⟩) (setState (0, ⟨3, 5⟩) reset) = true :=
  ⟨counterStore_selector_notification.2.1 (0, ⟨3, 5⟩),
   counterStore_selector_notification.2.2.1 (0, ⟨3, 5⟩),
   counterStore_selector_notification.2.2.2.1 (0, ⟨3, 5⟩)⟩
